import Mathlib

/-!
Verification of the two UI components in this repository:

* `Checkbox` (src/unnamed/part_000): a checkbox control whose external value is a
  boolean, a string, or a collection of scalars, with a custom `valueWhenTrue`
  sentinel, a derived `isChecked` flag, and a `clicked` toggle handler that emits
  a proposed replacement value.
* `DetailText` (src/shell/components/DetailText.vue): a detail-text / reveal panel
  with truncation (`expanded`, `isLong`, `body`), JSON classification (`jsonStr`)
  and a conceal policy (`concealed`, `hideSensitiveData`).

JavaScript dynamic values are embedded as a tagged union `Scalar` (booleans,
strings, integers, `null`) plus collections (`JSValue.arr`); JS strict equality
`===` is decidable equality on that union, and JS truthiness is `truthy`.
-/

namespace Checkbox

/-- A JavaScript scalar as it can appear in the `value` / `valueWhenTrue` props:
a boolean, a string, a number (modelled as an integer), or `null`. -/
inductive Scalar where
  | b (x : Bool)
  | s (x : String)
  | n (x : Int)
  | null
deriving DecidableEq, Repr

/-- JavaScript truthiness of a scalar: `false`, `""`, `0` and `null` are falsy. -/
def truthy : Scalar → Bool
  | .b x => x
  | .s x => x ≠ ""
  | .n x => x ≠ 0
  | .null => false

/-- The `value` prop: either a scalar or an array of scalars. -/
inductive JSValue where
  | scalar (v : Scalar)
  | arr (xs : List Scalar)
deriving DecidableEq, Repr

/-- Embeds `isMulti(value)`: `Array.isArray(value)`. -/
def isMulti : JSValue → Bool
  | .arr _ => true
  | .scalar _ => false

/-- Embeds `isString(value)`: `typeof value === 'string'`. -/
def isString : Scalar → Bool
  | .s _ => true
  | _ => false

/-- Embeds `findTrueValues(value)`: `value.find((v) => v === this.valueWhenTrue) || false`.
`Array.prototype.find` returns the first matching element (or `undefined`), and
`x || false` yields `x` when `x` is truthy and `false` otherwise. -/
def findTrueValues (valueWhenTrue : Scalar) (value : List Scalar) : Scalar :=
  match value.find? (fun v => v == valueWhenTrue) with
  | some v => if truthy v then v else .b false
  | none => .b false

/-- Embeds `isChecked`: `this.isMulti(this.value) ? this.findTrueValues(this.value)
: this.value === this.valueWhenTrue`, read as a boolean (it feeds `:checked`
and `if (this.isChecked)`, both of which coerce by truthiness). -/
def isChecked (value : JSValue) (valueWhenTrue : Scalar) : Bool :=
  match value with
  | .arr xs => truthy (findTrueValues valueWhenTrue xs)
  | .scalar v => v == valueWhenTrue

/-- Embeds `_VIEW` from `@shell/config/query-params`. -/
def _VIEW : String := "view"

/-- Embeds `_EDIT` from `@shell/config/query-params`. -/
def _EDIT : String := "edit"

/-- Embeds `isDisabled`: `this.disabled || this.mode === _VIEW`. -/
def isDisabled (disabled : Bool) (mode : String) : Bool :=
  disabled || mode == _VIEW

/-- Modelled from the spec: `addObject` from `@shell/utils/array` is not under
`src/`; the spec says the unchecked collection branch must "produce a copy with
`valueWhenTrue` appended". -/
def addObject (xs : List Scalar) (v : Scalar) : List Scalar :=
  xs ++ [v]

/-- Modelled from the spec: `removeObject` from `@shell/utils/array` is not under
`src/`; the spec design note says it is "a generic remove-by-value operation"
and "the design above assumes removal of one matching entry (first occurrence)". -/
def removeObject (xs : List Scalar) (v : Scalar) : List Scalar :=
  xs.erase v

/-- Embeds `cloneDeep` from lodash (external library): returns a structurally equal deep
copy. On the pure value model this is the identity; the aliasing consequence of
copying is modelled explicitly in `HeapModel` below. -/
def cloneDeep (v : JSValue) : JSValue := v

/-- The part of a click/keyboard event the handler inspects:
whether `event.target.tagName === 'A'` and whether `event.target.href` is truthy. -/
structure ClickEvent where
  targetTagIsA : Bool
  targetHasHref : Bool
deriving DecidableEq, Repr

/-- Observable outcome of one `clicked(event)` call: the payload of the single
`update:value` emission if any, whether the event default was prevented and its
propagation stopped, and whether the handler returned `true` (link pass-through). -/
structure ClickOutcome where
  emitted : Option JSValue
  defaultPrevented : Bool
  propagationStopped : Bool
  returnedTrue : Bool
deriving DecidableEq, Repr

/-- Embeds `clicked(event)`: link targets pass through before `preventDefault`; then the
event is stopped/prevented; a disabled control emits nothing; otherwise the value
is deep-cloned and one of the three toggle branches emits `update:value`. -/
def clicked (value : JSValue) (valueWhenTrue : Scalar) (disabled : Bool)
    (mode : String) (event : ClickEvent) : ClickOutcome :=
  if event.targetTagIsA && event.targetHasHref then
    ⟨none, false, false, true⟩
  else if isDisabled disabled mode then
    ⟨none, true, true, false⟩
  else
    match cloneDeep value with
    | .arr xs =>
      if isChecked value valueWhenTrue then
        ⟨some (.arr (removeObject xs valueWhenTrue)), true, true, false⟩
      else
        ⟨some (.arr (addObject xs valueWhenTrue)), true, true, false⟩
    | .scalar sv =>
      if isString valueWhenTrue then
        if isChecked value valueWhenTrue then
          ⟨some (.scalar .null), true, true, false⟩
        else
          ⟨some (.scalar valueWhenTrue), true, true, false⟩
      else
        ⟨some (.scalar (.b (!truthy sv))), true, true, false⟩

/-- The emitted value of an unsuppressed toggle in edit mode (the parent feeds it
back in as the new `value`); outside the emitting branches this defaults to the
old value, which never happens for an enabled non-link activation. -/
def nextVal (value : JSValue) (valueWhenTrue : Scalar) : JSValue :=
  (clicked value valueWhenTrue false _EDIT ⟨false, false⟩).emitted.getD value

/-- Iterating the toggle-and-feed-back loop `m` times. -/
def iterToggle (valueWhenTrue : Scalar) : Nat → JSValue → JSValue
  | 0, v => v
  | m + 1, v => nextVal (iterToggle valueWhenTrue m v) valueWhenTrue

/-- The toggle algorithm as the spec states it, kept separate for comparison with
`clicked`: a collection gets the sentinel removed when checked and appended when
not; a string sentinel toggles between `null` and the sentinel; any other sentinel
makes the handler propose the logical negation of the value. -/
def specToggle (value : JSValue) (valueWhenTrue : Scalar) : JSValue :=
  match value with
  | .arr xs =>
    if isChecked value valueWhenTrue then .arr (removeObject xs valueWhenTrue)
    else .arr (addObject xs valueWhenTrue)
  | .scalar sv =>
    if isString valueWhenTrue then
      (if isChecked value valueWhenTrue then .scalar .null else .scalar valueWhenTrue)
    else .scalar (.b (!truthy sv))

/-- JS truthiness of an optional string attribute/prop (absent or empty is falsy). -/
def strTruthy : Option String → Bool
  | some st => st ≠ ""
  | none => false

/-- Embeds `ariaDescribedBy`: `this.$attrs['aria-describedby']` is the inherited id; the
internal id is `describedById` when `this.descriptionKey || this.description` is
truthy; both present joins them with one space, one present yields it alone,
neither yields `undefined`. -/
def ariaDescribedBy (inheritedDescribedBy descriptionKey description : Option String)
    (describedById : String) : Option String :=
  let internalDescribedBy : Option String :=
    if strTruthy descriptionKey || strTruthy description then some describedById else none
  if strTruthy inheritedDescribedBy && strTruthy internalDescribedBy then
    some (inheritedDescribedBy.getD "" ++ " " ++ internalDescribedBy.getD "")
  else if strTruthy inheritedDescribedBy || strTruthy internalDescribedBy then
    if strTruthy inheritedDescribedBy then inheritedDescribedBy else internalDescribedBy
  else
    none

/-- The aria-describedby computation as the claim states it: the internal id counts
as present when a description or a tooltip is present. Spec-side definition, for
comparison with `ariaDescribedBy`. -/
def ariaDescribedBySpec (inherited : Option String) (hasDescriptionOrTooltip : Bool)
    (internalId : String) : Option String :=
  if strTruthy inherited && hasDescriptionOrTooltip then
    some (inherited.getD "" ++ " " ++ internalId)
  else if strTruthy inherited then inherited
  else if hasDescriptionOrTooltip then some internalId
  else none

namespace HeapModel

/-- A heap of JS array objects: arrays are mutable references into this store,
scalars are immutable. This refines the pure model to make aliasing observable:
`removeObject` / `addObject` mutate the array they are handed in place, so it
matters that `clicked` hands them the `cloneDeep` copy and not the prop. -/
structure Heap where
  arrays : List (List Scalar)
deriving Repr

/-- Dereference an array object. -/
def Heap.get (h : Heap) (r : Nat) : List Scalar :=
  h.arrays.getD r []

/-- Overwrite the contents of an array object in place. -/
def Heap.set (h : Heap) (r : Nat) (xs : List Scalar) : Heap :=
  ⟨h.arrays.set r xs⟩

/-- Allocate a fresh array object. -/
def Heap.alloc (h : Heap) (xs : List Scalar) : Heap × Nat :=
  (⟨h.arrays ++ [xs]⟩, h.arrays.length)

/-- A prop value at heap level: a scalar, or a reference to an array object. -/
inductive HValue where
  | scalar (v : Scalar)
  | ref (r : Nat)
deriving DecidableEq, Repr

/-- lodash `cloneDeep` at heap level: scalars are returned as-is, an array is
copied into a freshly allocated object. -/
def cloneDeep (h : Heap) : HValue → Heap × HValue
  | .scalar v => (h, .scalar v)
  | .ref r =>
    match h.alloc (h.get r) with
    | (h2, r2) => (h2, .ref r2)

/-- Embeds `removeObject(ary, obj)` mutates `ary` in place (first matching entry removed,
per the spec's design note). -/
def removeObject (h : Heap) (r : Nat) (v : Scalar) : Heap :=
  h.set r ((h.get r).erase v)

/-- Embeds `addObject(ary, obj)` mutates `ary` in place (entry appended, per the spec). -/
def addObject (h : Heap) (r : Nat) (v : Scalar) : Heap :=
  h.set r (h.get r ++ [v])

/-- Embeds `isChecked` read through the heap. -/
def isChecked (h : Heap) (value : HValue) (valueWhenTrue : Scalar) : Bool :=
  match value with
  | .ref r => truthy (findTrueValues valueWhenTrue (h.get r))
  | .scalar v => v == valueWhenTrue

/-- Embeds `clicked(event)` at heap level: the same control flow as `Checkbox.clicked`,
with the in-place array operations applied to the object `cloneDeep` returned.
Yields the final heap and the emitted `update:value` payload, if any. -/
def clicked (h : Heap) (value : HValue) (valueWhenTrue : Scalar) (disabled : Bool)
    (mode : String) (event : ClickEvent) : Heap × Option HValue :=
  if event.targetTagIsA && event.targetHasHref then
    (h, none)
  else if isDisabled disabled mode then
    (h, none)
  else
    match cloneDeep h value with
    | (h1, .ref r) =>
      if isChecked h value valueWhenTrue then
        (removeObject h1 r valueWhenTrue, some (.ref r))
      else
        (addObject h1 r valueWhenTrue, some (.ref r))
    | (h1, .scalar sv) =>
      if isString valueWhenTrue then
        if isChecked h value valueWhenTrue then
          (h1, some (.scalar .null))
        else
          (h1, some (.scalar valueWhenTrue))
      else
        (h1, some (.scalar (.b (!truthy sv))))

end HeapModel

end Checkbox

namespace DetailText


/-- JS string length (`value.length`), counted on the character list. -/
def strLen (s : String) : Nat := s.data.length

/-- Embeds `s.slice(0, e)` for a JS string: a negative end index counts from the end,
otherwise the first `e` characters are kept. -/
def jsSlice0 (s : String) (e : Int) : String :=
  if e < 0 then String.mk (s.data.take ((strLen s : Int) + e).toNat)
  else String.mk (s.data.take e.toNat)

/-- Modelled from the spec: `asciiLike` from `@shell/utils/string` (the spec's
"content-type sniffer (ASCII-likeness test)") is not under `src/`; modelled as
"every character is ASCII". -/
def asciiLike (s : String) : Bool := s.data.all (fun c => c.toNat ≤ 127)

/-- Embeds `s.startsWith(pfx)` for JS strings, on the character list. -/
def jsStartsWith (s pfx : String) : Bool := s.data.take pfx.data.length == pfx.data

/-- A JSON value as `JSON.parse` produces it; numbers are modelled as integers
(fractions and exponents, being floating point, are outside the model). -/
inductive Json where
  | null
  | b (x : Bool)
  | num (n : Int)
  | str (s : String)
  | arr (xs : List Json)
  | obj (kvs : List (String × Json))

/-- The opening brace character. -/
def lbrace : Char := Char.ofNat 123

/-- The closing brace character. -/
def rbrace : Char := Char.ofNat 125

/-- Skip JSON whitespace. -/
def skipWs : List Char → List Char
  | c :: cs => if c = ' ' ∨ c = '\t' ∨ c = '\n' ∨ c = '\r' then skipWs cs else c :: cs
  | [] => []

/-- Embeds `s.trim()` for JS strings: whitespace stripped from both ends. -/
def jsTrim (s : String) : String :=
  String.mk ((skipWs (skipWs s.data).reverse).reverse)

/-- Longest leading run of decimal digits. -/
def takeDigits : List Char → List Char × List Char
  | c :: cs =>
    if '0' ≤ c ∧ c ≤ '9' then
      match takeDigits cs with
      | (ds, rest) => (c :: ds, rest)
    else ([], c :: cs)
  | [] => ([], [])

/-- Decimal digits to a natural number. -/
def digitsToNat (ds : List Char) : Nat :=
  ds.foldl (fun acc c => acc * 10 + (c.toNat - 48)) 0

/-- Parse a JSON integer (optional minus sign and digits). -/
def parseNumber (cs : List Char) : Option (Int × List Char) :=
  match cs with
  | c :: rest =>
    if c = '-' then
      match takeDigits rest with
      | ([], _) => none
      | (ds, rest2) => some (-(digitsToNat ds : Int), rest2)
    else
      match takeDigits (c :: rest) with
      | ([], _) => none
      | (ds, rest2) => some ((digitsToNat ds : Int), rest2)
  | [] => none

/-- Parse the body of a JSON string after the opening quote, handling the simple
escapes (`\u` escapes are outside the model). -/
def parseStringBody (fuel : Nat) (cs : List Char) (acc : List Char) :
    Option (String × List Char) :=
  match fuel, cs with
  | 0, _ => none
  | _, [] => none
  | fuel + 1, c :: rest =>
    if c = '"' then some (String.mk acc.reverse, rest)
    else if c = '\\' then
      match rest with
      | [] => none
      | e :: rest2 =>
        if e = '"' then parseStringBody fuel rest2 ('"' :: acc)
        else if e = '\\' then parseStringBody fuel rest2 ('\\' :: acc)
        else if e = '/' then parseStringBody fuel rest2 ('/' :: acc)
        else if e = 'n' then parseStringBody fuel rest2 ('\n' :: acc)
        else if e = 't' then parseStringBody fuel rest2 ('\t' :: acc)
        else if e = 'r' then parseStringBody fuel rest2 ('\r' :: acc)
        else if e = 'b' then parseStringBody fuel rest2 (Char.ofNat 8 :: acc)
        else if e = 'f' then parseStringBody fuel rest2 (Char.ofNat 12 :: acc)
        else none
    else parseStringBody fuel rest (c :: acc)

mutual

/-- Parse one JSON value (model of the recursive descent done by `JSON.parse`). -/
def parseValue : Nat → List Char → Option (Json × List Char)
  | 0, _ => none
  | fuel + 1, cs =>
    match skipWs cs with
    | [] => none
    | c :: rest =>
      if c = lbrace then
        match skipWs rest with
        | d :: rest2 =>
          if d = rbrace then some (.obj [], rest2)
          else
            match parseMembers fuel rest [] with
            | some (kvs, rest3) => some (.obj kvs, rest3)
            | none => none
        | [] => none
      else if c = '[' then
        match skipWs rest with
        | d :: rest2 =>
          if d = ']' then some (.arr [], rest2)
          else
            match parseElems fuel rest [] with
            | some (js, rest3) => some (.arr js, rest3)
            | none => none
        | [] => none
      else if c = '"' then
        match parseStringBody (rest.length + 1) rest [] with
        | some (s, rest2) => some (.str s, rest2)
        | none => none
      else if (c :: rest).take 4 = ['t', 'r', 'u', 'e'] then
        some (.b true, (c :: rest).drop 4)
      else if (c :: rest).take 5 = ['f', 'a', 'l', 's', 'e'] then
        some (.b false, (c :: rest).drop 5)
      else if (c :: rest).take 4 = ['n', 'u', 'l', 'l'] then
        some (.null, (c :: rest).drop 4)
      else
        match parseNumber (c :: rest) with
        | some (n, rest2) => some (.num n, rest2)
        | none => none

/-- Parse the comma-separated elements of a non-empty JSON array, up to `]`. -/
def parseElems (fuel : Nat) (cs : List Char) (acc : List Json) :
    Option (List Json × List Char) :=
  match fuel with
  | 0 => none
  | fuel + 1 =>
    match parseValue fuel cs with
    | none => none
    | some (j, rest) =>
      match skipWs rest with
      | d :: rest2 =>
        if d = ',' then parseElems fuel rest2 (acc ++ [j])
        else if d = ']' then some (acc ++ [j], rest2)
        else none
      | [] => none

/-- Parse the comma-separated members of a non-empty JSON object, up to the
closing brace. -/
def parseMembers (fuel : Nat) (cs : List Char) (acc : List (String × Json)) :
    Option (List (String × Json) × List Char) :=
  match fuel with
  | 0 => none
  | fuel + 1 =>
    match skipWs cs with
    | q :: rest =>
      if q = '"' then
        match parseStringBody (rest.length + 1) rest [] with
        | some (k, rest2) =>
          match skipWs rest2 with
          | colon :: rest3 =>
            if colon = ':' then
              match parseValue fuel rest3 with
              | some (j, rest4) =>
                match skipWs rest4 with
                | d :: rest5 =>
                  if d = ',' then parseMembers fuel rest5 (acc ++ [(k, j)])
                  else if d = rbrace then some (acc ++ [(k, j)], rest5)
                  else none
                | [] => none
              | none => none
            else none
          | [] => none
        | none => none
      else none
    | [] => none

end

/-- Embeds `JSON.parse(value)` (model): whole-input parse with surrounding whitespace
allowed; `none` is a thrown `SyntaxError`. -/
def parseJSON (value : String) : Option Json :=
  match parseValue (value.data.length + 1) value.data with
  | some (j, rest) => if skipWs rest = [] then some j else none
  | none => none

/-- Escape one character for JSON string output. -/
def escapeChar (c : Char) : List Char :=
  if c = '"' then ['\\', '"']
  else if c = '\\' then ['\\', '\\']
  else if c = '\n' then ['\\', 'n']
  else if c = '\t' then ['\\', 't']
  else if c = '\r' then ['\\', 'r']
  else [c]

/-- Quote a string for JSON output. -/
def quoteString (s : String) : String :=
  String.mk ('"' :: s.data.foldr (fun c acc => escapeChar c ++ acc) ['"'])

/-- A run of spaces. -/
def spaces (n : Nat) : String := String.mk (List.replicate n ' ')

mutual

/-- Embeds `JSON.stringify(j, null, 2)` (model) at the given current indentation. -/
def stringifyJson (ind : Nat) (j : Json) : String :=
  match j with
  | .null => "null"
  | .b true => "true"
  | .b false => "false"
  | .num n => toString n
  | .str s => quoteString s
  | .arr [] => "[]"
  | .arr (x :: xs) =>
    "[\n" ++ stringifyItems (ind + 2) x xs ++ "\n" ++ spaces ind ++ "]"
  | .obj [] => "\x7b\x7d"
  | .obj (kv :: kvs) =>
    "\x7b\n" ++ stringifyMembers (ind + 2) kv kvs ++ "\n" ++ spaces ind ++ "\x7d"
termination_by sizeOf j

/-- Pretty-print array items, one per line. -/
def stringifyItems (ind : Nat) (x : Json) (xs : List Json) : String :=
  match xs with
  | [] => spaces ind ++ stringifyJson ind x
  | y :: ys => spaces ind ++ stringifyJson ind x ++ ",\n" ++ stringifyItems ind y ys
termination_by sizeOf x + sizeOf xs

/-- Pretty-print object members, one per line. -/
def stringifyMembers (ind : Nat) (kv : String × Json) (kvs : List (String × Json)) :
    String :=
  match kv, kvs with
  | (k, v), [] => spaces ind ++ quoteString k ++ ": " ++ stringifyJson ind v
  | (k, v), y :: ys =>
    spaces ind ++ quoteString k ++ ": " ++ stringifyJson ind v ++ ",\n" ++
      stringifyMembers ind y ys
termination_by sizeOf kv + sizeOf kvs

end

/-- Embeds `jsonStr`: when the value is truthy and starts with a brace or bracket, try
`JSON.parse` and return the 2-space pretty-print; a parse error is caught and
yields `null`; otherwise `null`. -/
def jsonStr (value : String) : Option String :=
  if value ≠ "" ∧ (jsStartsWith value "\x7b" ∨ jsStartsWith value "[") then
    match parseJSON value with
    | some parsed => some (stringifyJson 0 parsed)
    | none => none
  else none

/-- The component state of DetailText: the props the claims involve plus the two
`data()` fields (`expanded`, `standAloneHide`), and the shared-store
`HIDE_SENSITIVE` preference the component reads. -/
structure DTState where
  value : String
  maxLength : Int
  binary : Option Bool
  conceal : Bool
  concealStandAlone : Bool
  expanded : Bool
  standAloneHide : Bool
  hideSensitivePref : Bool
deriving DecidableEq, Repr

/-- Embeds `data()`: `expanded` is initialized to `value.length <= maxLength`,
`standAloneHide` to `true`. -/
def initState (value : String) (maxLength : Int) (binary : Option Bool)
    (conceal concealStandAlone hideSensitivePref : Bool) : DTState where
  value := value
  maxLength := maxLength
  binary := binary
  conceal := conceal
  concealStandAlone := concealStandAlone
  expanded := decide ((strLen value : Int) ≤ maxLength)
  standAloneHide := true
  hideSensitivePref := hideSensitivePref

/-- Embeds `isBinary`: the `binary` prop, or when it is null, `!asciiLike(value)`. -/
def DTState.isBinary (st : DTState) : Bool :=
  match st.binary with
  | none => !asciiLike st.value
  | some b => b

/-- Embeds `size`: the length of the value. -/
def DTState.size (st : DTState) : Nat := strLen st.value

/-- Embeds `isLong`: `this.size > this.maxLength`. -/
def DTState.isLong (st : DTState) : Bool := decide ((st.size : Int) > st.maxLength)

/-- Embeds `isEmpty`: `this.size === 0`. -/
def DTState.isEmpty (st : DTState) : Bool := st.size == 0

/-- Embeds `body`: binary content renders the i18n binary summary (`binaryLabel`, a
collaborator lookup); an expanded value renders whole; otherwise the first
`maxLength` characters via `slice`. -/
def DTState.body (st : DTState) (binaryLabel : String) : String :=
  if st.isBinary then binaryLabel
  else if st.expanded then st.value
  else jsSlice0 st.value st.maxLength

/-- Embeds `hideSensitiveData`: the component-local `standAloneHide` when
`concealStandAlone` is set, else the `HIDE_SENSITIVE` preference from the store. -/
def DTState.hideSensitiveData (st : DTState) : Bool :=
  if st.concealStandAlone then st.standAloneHide else st.hideSensitivePref

/-- Embeds `concealed`: `this.conceal && this.hideSensitiveData && !this.isBinary`. -/
def DTState.concealed (st : DTState) : Bool :=
  st.conceal && st.hideSensitiveData && !st.isBinary

/-- Embeds `expand()`: `this.expanded = !this.expanded`. -/
def expand (st : DTState) : DTState := { st with expanded := !st.expanded }

/-- The standalone conceal button: `@click="standAloneHide = !standAloneHide"`. -/
def toggleStandAloneHide (st : DTState) : DTState :=
  { st with standAloneHide := !st.standAloneHide }

end DetailText

namespace Checkbox

theorem find?_cons_eq (p : Scalar → Bool) (x : Scalar) (xs : List Scalar) :
    List.find? p (x :: xs) = if p x then some x else List.find? p xs := by
  cases h : p x <;> simp [List.find?, h]

theorem findTrueValues_cons (vwt x : Scalar) (xs : List Scalar) :
    findTrueValues vwt (x :: xs) =
      if x = vwt then (if truthy x then x else .b false) else findTrueValues vwt xs := by
  unfold findTrueValues
  rw [find?_cons_eq]
  by_cases hx : x = vwt
  · rw [if_pos (by simp [hx]), if_pos hx]
  · rw [if_neg (by simp [hx]), if_neg hx]

theorem truthy_findTrueValues (vwt : Scalar) (xs : List Scalar) :
    truthy (findTrueValues vwt xs) = (decide (vwt ∈ xs) && truthy vwt) := by
  induction xs with
  | nil => rfl
  | cons x xs ih =>
    rw [findTrueValues_cons]
    by_cases hx : x = vwt
    · subst hx
      rw [if_pos rfl]
      cases h : truthy x with
      | true => simp [h]
      | false => simp [truthy]
    · rw [if_neg hx, ih]
      simp [List.mem_cons, Ne.symm hx]

theorem isChecked_arr (xs : List Scalar) (vwt : Scalar) :
    isChecked (.arr xs) vwt = (decide (vwt ∈ xs) && truthy vwt) :=
  truthy_findTrueValues vwt xs

theorem clicked_emitted_of_enabled (value : JSValue) (vwt : Scalar) (disabled : Bool)
    (mode : String) (ev : ClickEvent)
    (hl : (ev.targetTagIsA && ev.targetHasHref) = false)
    (hdis : isDisabled disabled mode = false) :
    (clicked value vwt disabled mode ev).emitted = some (specToggle value vwt) := by
  unfold clicked specToggle cloneDeep
  rw [hl, hdis]
  cases value with
  | arr xs => cases h : isChecked (.arr xs) vwt <;> simp [h]
  | scalar sv =>
    cases hs : isString vwt <;> cases h : isChecked (.scalar sv) vwt <;> simp [hs, h]

theorem nextVal_eq_specToggle (value : JSValue) (vwt : Scalar) :
    nextVal value vwt = specToggle value vwt := by
  unfold nextVal
  rw [clicked_emitted_of_enabled value vwt false _EDIT ⟨false, false⟩ rfl (by decide)]
  rfl

/-- C1 counterexample: with the collection `[false]` and sentinel `valueWhenTrue = false`,
the sentinel is an element of the collection but `isChecked` is `false`, because
`value.find((v) => v === valueWhenTrue) || false` collapses a found falsy element
to `false`. -/
theorem checkbox_C1_cex :
    Scalar.b false ∈ [Scalar.b false] ∧
    isChecked (.arr [Scalar.b false]) (.b false) = false := by
  decide

/-- C1 (amended): for collection values, `isChecked` is true iff `valueWhenTrue` is an
element of the collection AND `valueWhenTrue` is truthy; for scalar values, `isChecked`
is true iff `value === valueWhenTrue`. -/
theorem checkbox_C1 (xs : List Scalar) (vwt v : Scalar) :
    (isChecked (.arr xs) vwt = true ↔ vwt ∈ xs ∧ truthy vwt = true) ∧
    (isChecked (.scalar v) vwt = true ↔ v = vwt) := by
  constructor
  · rw [isChecked_arr]
    simp
  · show (v == vwt) = true ↔ v = vwt
    simp

/-- C2: for every activation that is not suppressed (not disabled, target not a
hyperlink), `clicked` emits exactly one `update:value` proposal equal to the
spec's toggle algorithm (collection: sentinel removed when checked, appended when
not; string sentinel: `null` when checked, the sentinel when not; otherwise the
logical negation of the value); in particular `value = "yes"` with
`valueWhenTrue = "yes"` emits `null`, and `value = null` emits `"yes"`. -/
theorem checkbox_C2 (value : JSValue) (vwt : Scalar) (disabled : Bool) (mode : String)
    (ev : ClickEvent)
    (hlink : ¬(ev.targetTagIsA = true ∧ ev.targetHasHref = true))
    (hdis : isDisabled disabled mode = false) :
    (clicked value vwt disabled mode ev).emitted = some (specToggle value vwt) ∧
    (clicked (.scalar (.s "yes")) (.s "yes") disabled mode ev).emitted
        = some (.scalar .null) ∧
    (clicked (.scalar .null) (.s "yes") disabled mode ev).emitted
        = some (.scalar (.s "yes")) := by
  have hl : (ev.targetTagIsA && ev.targetHasHref) = false := by
    cases h1 : ev.targetTagIsA <;> cases h2 : ev.targetHasHref <;> simp_all
  refine ⟨clicked_emitted_of_enabled value vwt disabled mode ev hl hdis, ?_, ?_⟩
  · rw [clicked_emitted_of_enabled _ _ disabled mode ev hl hdis]
    decide
  · rw [clicked_emitted_of_enabled _ _ disabled mode ev hl hdis]
    decide

theorem checkbox_C2_witness :
    (clicked (.arr [Scalar.s "a"]) (.s "a") false _EDIT ⟨false, false⟩).emitted
        = some (specToggle (.arr [Scalar.s "a"]) (.s "a")) ∧
    (clicked (.scalar (.s "yes")) (.s "yes") false _EDIT ⟨false, false⟩).emitted
        = some (.scalar .null) ∧
    (clicked (.scalar .null) (.s "yes") false _EDIT ⟨false, false⟩).emitted
        = some (.scalar (.s "yes")) :=
  checkbox_C2 (.arr [Scalar.s "a"]) (.s "a") false _EDIT ⟨false, false⟩
    (by decide) (by decide)

/-- C5: the handler never emits when the control is disabled (`disabled` true or
mode `_VIEW`); and when the activation target is a hyperlink element with a
truthy `href`, the handler emits nothing, does not prevent the event, and
returns `true`, regardless of disabled state. -/
theorem checkbox_C5 (value : JSValue) (vwt : Scalar) (disabled : Bool) (mode : String)
    (ev : ClickEvent) :
    (isDisabled disabled mode = true → (clicked value vwt disabled mode ev).emitted = none) ∧
    (ev.targetTagIsA = true → ev.targetHasHref = true →
      (clicked value vwt disabled mode ev).emitted = none ∧
      (clicked value vwt disabled mode ev).defaultPrevented = false ∧
      (clicked value vwt disabled mode ev).returnedTrue = true) := by
  constructor
  · intro hd
    unfold clicked
    cases hl : (ev.targetTagIsA && ev.targetHasHref) <;> simp [hl, hd]
  · intro h1 h2
    unfold clicked
    simp [h1, h2]

theorem checkbox_C5_witness :
    (clicked (.scalar (.b true)) (.b true) true _EDIT ⟨false, false⟩).emitted = none ∧
    ((clicked (.scalar (.b true)) (.b true) false _EDIT ⟨true, true⟩).emitted = none ∧
      (clicked (.scalar (.b true)) (.b true) false _EDIT ⟨true, true⟩).defaultPrevented = false ∧
      (clicked (.scalar (.b true)) (.b true) false _EDIT ⟨true, true⟩).returnedTrue = true) :=
  ⟨(checkbox_C5 (.scalar (.b true)) (.b true) true _EDIT ⟨false, false⟩).1 (by decide),
    (checkbox_C5 (.scalar (.b true)) (.b true) false _EDIT ⟨true, true⟩).2 rfl rfl⟩

theorem toggleTwice_arr_perm (vwtc : Scalar) (xs : List Scalar)
    (htr : truthy vwtc = true) (hcount : xs.count vwtc ≤ 1) :
    ∃ ys, iterToggle vwtc 2 (.arr xs) = .arr ys ∧ ys.Perm xs := by
  have h2 : iterToggle vwtc 2 (.arr xs) = nextVal (nextVal (.arr xs) vwtc) vwtc := rfl
  by_cases hmem : vwtc ∈ xs
  · have h1 : nextVal (.arr xs) vwtc = .arr (xs.erase vwtc) := by
      rw [nextVal_eq_specToggle]
      simp [specToggle, isChecked_arr, hmem, htr, removeObject]
    have hnot : vwtc ∉ xs.erase vwtc := by
      intro hmem2
      have hc1 : xs.count vwtc = 1 :=
        le_antisymm hcount (List.count_pos_iff.mpr hmem)
      have hpos := List.count_pos_iff.mpr hmem2
      rw [List.count_erase_self, hc1] at hpos
      simp at hpos
    refine ⟨xs.erase vwtc ++ [vwtc], ?_, ?_⟩
    · rw [h2, h1, nextVal_eq_specToggle]
      simp [specToggle, isChecked_arr, hnot, addObject]
    · exact (List.perm_append_singleton _ _).trans (List.perm_cons_erase hmem).symm
  · have h1 : nextVal (.arr xs) vwtc = .arr (xs ++ [vwtc]) := by
      rw [nextVal_eq_specToggle]
      simp [specToggle, isChecked_arr, hmem, addObject]
    refine ⟨xs, ?_, List.Perm.refl xs⟩
    rw [h2, h1, nextVal_eq_specToggle]
    have hmemapp : vwtc ∈ xs ++ [vwtc] := by simp
    simp [specToggle, isChecked_arr, hmemapp, htr, removeObject,
      List.erase_append_right _ hmem, List.erase_cons_head]

/-- C3 counterexample: in custom string sentinel mode with sentinel `"yes"`, starting
from the scalar value `"no"`, toggling twice yields `null`, which is not equivalent to
the starting value `"no"` (the scalars differ and even their truthiness differs). -/
theorem checkbox_C3_cex :
    iterToggle (.s "yes") 2 (.scalar (.s "no")) = .scalar .null ∧
    Scalar.null ≠ Scalar.s "no" ∧ truthy .null ≠ truthy (.s "no") := by
  decide

/-- C3 (amended): toggling twice returns to an equivalent value when the starting value
lies in the mode's reachable range: in plain boolean mode (non-string sentinel) any
boolean value round-trips exactly; in custom string sentinel mode the values `null` and
the sentinel round-trip exactly; a collection round-trips up to permutation whenever the
sentinel is truthy and occurs at most once in it (per the spec's example,
`["a","b"]` with sentinel `"a"` toggles to `["b"]` and then to `["b","a"]`). Toggling
twice does not return to arbitrary starting values (see the counterexample). -/
theorem checkbox_C3 (vwt vwtc : Scalar) (x : Bool) (w : String) (xs : List Scalar)
    (hvwt : isString vwt = false) (htr : truthy vwtc = true) (hcount : xs.count vwtc ≤ 1) :
    iterToggle vwt 2 (.scalar (.b x)) = .scalar (.b x) ∧
    iterToggle (.s w) 2 (.scalar .null) = .scalar .null ∧
    iterToggle (.s w) 2 (.scalar (.s w)) = .scalar (.s w) ∧
    (∃ ys, iterToggle vwtc 2 (.arr xs) = .arr ys ∧ ys.Perm xs) ∧
    nextVal (.arr [Scalar.s "a", Scalar.s "b"]) (.s "a") = .arr [Scalar.s "b"] ∧
    nextVal (.arr [Scalar.s "b"]) (.s "a") = .arr [Scalar.s "b", Scalar.s "a"] := by
  refine ⟨?_, ?_, ?_, toggleTwice_arr_perm vwtc xs htr hcount, by decide, by decide⟩
  · show nextVal (nextVal (.scalar (.b x)) vwt) vwt = .scalar (.b x)
    simp only [nextVal_eq_specToggle]
    rw [show specToggle (.scalar (.b x)) vwt = .scalar (.b (!x)) from by
      simp [specToggle, hvwt, truthy]]
    simp [specToggle, hvwt, truthy]
  · have hne : (Scalar.null == Scalar.s w) = false := by
      rw [beq_eq_false_iff_ne]
      intro hcon
      exact Scalar.noConfusion hcon
    show nextVal (nextVal (.scalar .null) (.s w)) (.s w) = .scalar .null
    simp only [nextVal_eq_specToggle]
    rw [show specToggle (.scalar .null) (.s w) = .scalar (.s w) from by
      simp [specToggle, isString, isChecked, hne]]
    simp [specToggle, isString, isChecked]
  · have heq : (Scalar.s w == Scalar.s w) = true := beq_self_eq_true _
    show nextVal (nextVal (.scalar (.s w)) (.s w)) (.s w) = .scalar (.s w)
    simp only [nextVal_eq_specToggle]
    rw [show specToggle (.scalar (.s w)) (.s w) = .scalar .null from by
      simp [specToggle, isString, isChecked, heq]]
    have hne : (Scalar.null == Scalar.s w) = false := by
      rw [beq_eq_false_iff_ne]
      intro hcon
      exact Scalar.noConfusion hcon
    simp [specToggle, isString, isChecked, hne]

theorem checkbox_C3_witness :
    iterToggle (.b true) 2 (.scalar (.b true)) = .scalar (.b true) ∧
    iterToggle (.s "yes") 2 (.scalar .null) = .scalar .null ∧
    iterToggle (.s "yes") 2 (.scalar (.s "yes")) = .scalar (.s "yes") ∧
    (∃ ys, iterToggle (.s "a") 2 (.arr [Scalar.s "a", Scalar.s "b"]) = .arr ys ∧
      ys.Perm [Scalar.s "a", Scalar.s "b"]) ∧
    nextVal (.arr [Scalar.s "a", Scalar.s "b"]) (.s "a") = .arr [Scalar.s "b"] ∧
    nextVal (.arr [Scalar.s "b"]) (.s "a") = .arr [Scalar.s "b", Scalar.s "a"] :=
  checkbox_C3 (.b true) (.s "a") true "yes" [Scalar.s "a", Scalar.s "b"]
    (by decide) (by decide) (by decide)

theorem nextVal_scalar_of_nonstring (v vwt : Scalar) (h : isString vwt = false) :
    nextVal (.scalar v) vwt = .scalar (.b (!truthy v)) := by
  rw [nextVal_eq_specToggle]
  simp [specToggle, h]

theorem iterToggle_num_bool (k : Int) (v : Scalar) (n : Nat) :
    ∃ x : Bool, iterToggle (.n k) (n + 1) (.scalar v) = .scalar (.b x) := by
  induction n with
  | zero => exact ⟨!truthy v, nextVal_scalar_of_nonstring v (.n k) rfl⟩
  | succ n ih =>
    obtain ⟨x, hx⟩ := ih
    refine ⟨!x, ?_⟩
    show nextVal (iterToggle (.n k) (n + 1) (.scalar v)) (.n k) = _
    rw [hx, nextVal_scalar_of_nonstring (Scalar.b x) (Scalar.n k) rfl]
    simp [truthy]

/-- C10: when `valueWhenTrue` is a number and `value` a scalar, `clicked` emits the
boolean negation of the value, never the numeric sentinel; consequently every value
reachable by one or more toggles is a boolean, and strict equality with the numeric
sentinel — hence `isChecked` — is false forever after. -/
theorem checkbox_C10 (k : Int) (v : Scalar) (m : Nat) (hm : 1 ≤ m) :
    (clicked (.scalar v) (.n k) false _EDIT ⟨false, false⟩).emitted
        = some (.scalar (.b (!truthy v))) ∧
    (∃ x : Bool, iterToggle (.n k) m (.scalar v) = .scalar (.b x) ∧
      isChecked (iterToggle (.n k) m (.scalar v)) (.n k) = false) := by
  constructor
  · rw [clicked_emitted_of_enabled _ _ false _EDIT ⟨false, false⟩ rfl (by decide)]
    simp [specToggle, isString]
  · obtain ⟨n, rfl⟩ : ∃ n, m = n + 1 := ⟨m - 1, (Nat.succ_pred_eq_of_pos hm).symm⟩
    obtain ⟨x, hx⟩ := iterToggle_num_bool k v n
    refine ⟨x, hx, ?_⟩
    rw [hx]
    show (Scalar.b x == Scalar.n k) = false
    rw [beq_eq_false_iff_ne]
    intro hcon
    exact Scalar.noConfusion hcon

theorem checkbox_C10_witness :
    (clicked (.scalar (.n 5)) (.n 5) false _EDIT ⟨false, false⟩).emitted
        = some (.scalar (.b (!truthy (.n 5)))) ∧
    (∃ x : Bool, iterToggle (.n 5) 2 (.scalar (.n 5)) = .scalar (.b x) ∧
      isChecked (iterToggle (.n 5) 2 (.scalar (.n 5))) (.n 5) = false) :=
  checkbox_C10 5 (.n 5) 2 (by decide)

namespace HeapModel

theorem heap_get_set_ne (h : Heap) (i j : Nat) (xs : List Scalar) (hij : i ≠ j) :
    (h.set i xs).get j = h.get j := by
  unfold Heap.get Heap.set
  rw [List.getD_eq_getElem?_getD, List.getD_eq_getElem?_getD]
  rw [List.getElem?_set_ne hij]

theorem heap_get_append (h : Heap) (j : Nat) (xs : List Scalar)
    (hj : j < h.arrays.length) :
    Heap.get ⟨h.arrays ++ [xs]⟩ j = h.get j := by
  unfold Heap.get
  rw [List.getD_eq_getElem?_getD, List.getD_eq_getElem?_getD]
  rw [List.getElem?_append_left hj]

end HeapModel

/-- C4: the toggle handler never mutates the `value` prop it was given: when the
prop is an array object, the in-place removal/append acts on the `cloneDeep` copy,
and the prop's array (with all its elements) reads back unchanged from the heap
after the handler returns; when the prop is a scalar the heap is untouched. -/
theorem checkbox_C4 (h : HeapModel.Heap) (vwt : Scalar) (disabled : Bool)
    (mode : String) (ev : ClickEvent) (r : Nat) (hr : r < h.arrays.length) :
    ((HeapModel.clicked h (.ref r) vwt disabled mode ev).1.get r = h.get r) ∧
    (∀ v : Scalar, (HeapModel.clicked h (.scalar v) vwt disabled mode ev).1 = h) := by
  constructor
  · unfold HeapModel.clicked
    cases hl : (ev.targetTagIsA && ev.targetHasHref) with
    | true => simp
    | false =>
      cases hd : isDisabled disabled mode with
      | true => simp [hd]
      | false =>
        have hclone : HeapModel.cloneDeep h (.ref r) =
            (⟨h.arrays ++ [h.get r]⟩, .ref h.arrays.length) := rfl
        have hne : h.arrays.length ≠ r := Nat.ne_of_gt hr
        cases hc : HeapModel.isChecked h (.ref r) vwt with
        | true =>
          simp only [hl, hd, hclone, hc]
          simp only [Bool.false_eq_true, if_false, if_true]
          unfold HeapModel.removeObject
          rw [HeapModel.heap_get_set_ne _ _ _ _ hne]
          exact HeapModel.heap_get_append h r (h.get r) hr
        | false =>
          simp only [hl, hd, hclone, hc]
          simp only [Bool.false_eq_true, if_false]
          unfold HeapModel.addObject
          rw [HeapModel.heap_get_set_ne _ _ _ _ hne]
          exact HeapModel.heap_get_append h r (h.get r) hr
  · intro v
    unfold HeapModel.clicked
    cases hl : (ev.targetTagIsA && ev.targetHasHref) with
    | true => simp
    | false =>
      cases hd : isDisabled disabled mode with
      | true => simp [hd]
      | false =>
        have hclone : HeapModel.cloneDeep h (.scalar v) = (h, .scalar v) := rfl
        cases hs : isString vwt with
        | true =>
          cases hc : HeapModel.isChecked h (.scalar v) vwt <;>
            simp [hl, hd, hclone, hs, hc]
        | false => simp [hl, hd, hclone, hs]

theorem checkbox_C4_witness :
    ((HeapModel.clicked ⟨[[Scalar.s "a"]]⟩ (.ref 0) (.s "a") false _EDIT
        ⟨false, false⟩).1.get 0 = HeapModel.Heap.get ⟨[[Scalar.s "a"]]⟩ 0) ∧
    (∀ v : Scalar, (HeapModel.clicked ⟨[[Scalar.s "a"]]⟩ (.scalar v) (.s "a") false _EDIT
        ⟨false, false⟩).1 = ⟨[[Scalar.s "a"]]⟩) :=
  checkbox_C4 ⟨[[Scalar.s "a"]]⟩ (.s "a") false _EDIT ⟨false, false⟩ 0 (by decide)

/-- C6 counterexample: with inherited id "ext", no description, and a tooltip
present, the claim predicts the joined "ext described-by-x"; the code computes the
internal id from `descriptionKey || description` only, so it returns just "ext". -/
theorem checkbox_C6_cex :
    ariaDescribedBy (some "ext") none none "described-by-x" = some "ext" ∧
    ariaDescribedBySpec (some "ext") true "described-by-x"
        = some ("ext" ++ " " ++ "described-by-x") ∧
    some "ext" ≠ some ("ext" ++ " " ++ "described-by-x") := by
  refine ⟨rfl, rfl, ?_⟩
  decide

/-- C6 (amended): with "present" meaning truthy (nonempty), and with only the
description or description key — not the tooltip — feeding the internal id: when
both an inherited id and a description are present the result is the two ids
joined by a single space; when exactly one is present it is that one alone; when
neither is present the attribute is omitted. -/
theorem checkbox_C6 (inh dk d : Option String) (did : String) (hdid : did ≠ "") :
    ariaDescribedBy inh dk d did
      = ariaDescribedBySpec inh (strTruthy dk || strTruthy d) did := by
  unfold ariaDescribedBy ariaDescribedBySpec
  cases hint : (strTruthy dk || strTruthy d) with
  | false => cases hinh : strTruthy inh <;> simp [hint, hinh, strTruthy]
  | true => cases hinh : strTruthy inh <;> simp [hint, hinh, strTruthy, hdid]

theorem checkbox_C6_witness :
    ariaDescribedBy (some "ext") (some "k") none "d1"
      = ariaDescribedBySpec (some "ext") (strTruthy (some "k") || strTruthy none) "d1" :=
  checkbox_C6 (some "ext") (some "k") none "d1" (by decide)

end Checkbox

namespace DetailText

/-- C7 counterexample: the value `" {}"` (leading space before a JSON object, braces
escaped here as hex) trims to start with a brace and parses as JSON, so the claim
predicts a pretty-printed rendering; the code tests `startsWith` on the untrimmed
value and returns null. -/
theorem detailtext_C7_cex :
    jsonStr " \x7b\x7d" = none ∧
    jsStartsWith (jsTrim " \x7b\x7d") "\x7b" = true ∧
    (parseJSON " \x7b\x7d").isSome = true := by
  refine ⟨rfl, ?_, rfl⟩
  decide

/-- C7 (amended): `jsonStr` returns a pretty-printed rendering iff the raw value —
not the trimmed one — is nonempty and starts with a brace or bracket and parses as
JSON (`JSON.parse` modelled by `parseJSON`); a parse failure yields null, the
silent fall-through to plain text, and the classification is a total function. -/
theorem detailtext_C7 (value : String) :
    ((jsonStr value).isSome ↔
      value ≠ "" ∧ (jsStartsWith value "\x7b" = true ∨ jsStartsWith value "[" = true) ∧
        (parseJSON value).isSome = true) ∧
    (parseJSON value = none → jsonStr value = none) := by
  constructor
  · unfold jsonStr
    split
    case isTrue hg =>
      cases hp : parseJSON value with
      | some j => simp [hg, hp]
      | none => simp [hg, hp]
    case isFalse hg =>
      refine iff_of_false (by simp) (fun hr => hg ⟨hr.1, hr.2.1⟩)
  · intro hp
    unfold jsonStr
    split
    · rw [hp]
    · rfl

theorem detailtext_C7_witness :
    jsonStr "\x7bx" = none :=
  (detailtext_C7 "\x7bx").2 rfl

theorem body_of_not_expanded (st : DTState) (lbl : String) (hb : st.isBinary = false)
    (he : st.expanded = false) (hml : 0 ≤ st.maxLength) :
    st.body lbl = String.mk (st.value.data.take st.maxLength.toNat) := by
  unfold DTState.body
  rw [hb, he]
  simp only [Bool.false_eq_true, if_false]
  unfold jsSlice0
  rw [if_neg (by omega)]

theorem body_of_expanded (st : DTState) (lbl : String) (hb : st.isBinary = false)
    (he : st.expanded = true) : st.body lbl = st.value := by
  unfold DTState.body
  rw [hb, he]
  simp

/-- C8: for a non-binary value, `expanded` is initialized to true iff
`value.length <= maxLength`; while long and not expanded the rendered body is
exactly the first `maxLength` characters; after the expand action flips
`expanded`, the body is the full value. -/
theorem detailtext_C8 (value : String) (ml : Int) (binary : Option Bool)
    (conceal csa pref : Bool) (lbl : String) (hml : 0 ≤ ml)
    (hbin : (initState value ml binary conceal csa pref).isBinary = false) :
    ((initState value ml binary conceal csa pref).expanded = true ↔
      (strLen value : Int) ≤ ml) ∧
    ((initState value ml binary conceal csa pref).isLong = true →
      (initState value ml binary conceal csa pref).body lbl
          = String.mk (value.data.take ml.toNat) ∧
      strLen ((initState value ml binary conceal csa pref).body lbl) = ml.toNat) ∧
    ((initState value ml binary conceal csa pref).isLong = true →
      (expand (initState value ml binary conceal csa pref)).body lbl = value ∧
      strLen ((expand (initState value ml binary conceal csa pref)).body lbl)
          = strLen value) := by
  refine ⟨?_, ?_, ?_⟩
  · simp [initState]
  · intro hlong
    have hgt : ml < (strLen value : Int) := by
      have hl2 := hlong
      simp [DTState.isLong, DTState.size, initState] at hl2
      omega
    have hexp : (initState value ml binary conceal csa pref).expanded = false := by
      simp only [initState, decide_eq_false_iff_not]
      omega
    have hb := body_of_not_expanded (initState value ml binary conceal csa pref)
      lbl hbin hexp hml
    refine ⟨hb, ?_⟩
    rw [hb]
    show (value.data.take ml.toNat).length = ml.toNat
    rw [List.length_take]
    have hlen : (strLen value) = value.data.length := rfl
    omega
  · intro hlong
    have hgt : ml < (strLen value : Int) := by
      have hl2 := hlong
      simp [DTState.isLong, DTState.size, initState] at hl2
      omega
    have hexp2 : (expand (initState value ml binary conceal csa pref)).expanded = true := by
      simp only [expand, initState]
      simp only [Bool.not_eq_true']
      simp only [decide_eq_false_iff_not]
      omega
    have hbe : (expand (initState value ml binary conceal csa pref)).isBinary = false := hbin
    have hb := body_of_expanded (expand (initState value ml binary conceal csa pref))
      lbl hbe hexp2
    exact ⟨hb, by rw [hb]; rfl⟩

set_option maxRecDepth 8192 in
theorem detailtext_C8_witness :
    (initState (String.mk (List.replicate 1000 'a')) 640 (some false)
        false false false).expanded = false ∧
    (initState (String.mk (List.replicate 1000 'a')) 640 (some false)
        false false false).isLong = true ∧
    (initState (String.mk (List.replicate 1000 'a')) 640 (some false)
        false false false).body "bin"
        = String.mk ((String.mk (List.replicate 1000 'a')).data.take 640) ∧
    strLen ((initState (String.mk (List.replicate 1000 'a')) 640 (some false)
        false false false).body "bin") = 640 ∧
    (expand (initState (String.mk (List.replicate 1000 'a')) 640 (some false)
        false false false)).body "bin" = String.mk (List.replicate 1000 'a') ∧
    strLen ((expand (initState (String.mk (List.replicate 1000 'a')) 640 (some false)
        false false false)).body "bin") = 1000 := by
  have h := detailtext_C8 (String.mk (List.replicate 1000 'a')) 640 (some false)
    false false false "bin" (by decide) rfl
  have hlen : strLen (String.mk (List.replicate 1000 'a')) = 1000 := by
    show (List.replicate 1000 'a').length = 1000
    exact List.length_replicate 1000 'a'
  have hlong : (initState (String.mk (List.replicate 1000 'a')) 640 (some false)
      false false false).isLong = true := by
    simp only [DTState.isLong, DTState.size, initState, hlen]
    decide
  have hexp : (initState (String.mk (List.replicate 1000 'a')) 640 (some false)
      false false false).expanded = false := by
    simp only [initState, hlen]
    decide
  exact ⟨hexp, hlong, (h.2.1 hlong).1, (h.2.1 hlong).2, (h.2.2 hlong).1,
    (h.2.2 hlong).2.trans hlen⟩

/-- C9: `concealed` is true iff the conceal prop is set, the effective hide-flag is
true and the content is not binary; the effective hide-flag is the component-local
`standAloneHide` when `concealStandAlone` is set and the shared `HIDE_SENSITIVE`
preference otherwise; and toggling `standAloneHide` flips `concealed` (for a
standalone concealed-capable state) without changing the value or the body. -/
theorem detailtext_C9 (st st2 : DTState) (lbl : String)
    (hcsa : st.concealStandAlone = true) (hc : st.conceal = true)
    (hb : st.isBinary = false) :
    (st2.concealed = true ↔
      st2.conceal = true ∧ st2.hideSensitiveData = true ∧ st2.isBinary = false) ∧
    (st2.hideSensitiveData
        = (if st2.concealStandAlone then st2.standAloneHide else st2.hideSensitivePref)) ∧
    ((toggleStandAloneHide st).concealed = !st.concealed) ∧
    (toggleStandAloneHide st).value = st.value ∧
    (toggleStandAloneHide st).body lbl = st.body lbl := by
  refine ⟨?_, rfl, ?_, rfl, rfl⟩
  · unfold DTState.concealed
    cases h1 : st2.conceal <;> cases h2 : st2.hideSensitiveData <;>
      cases h3 : st2.isBinary <;> simp [h1, h2, h3]
  · have hts : (toggleStandAloneHide st).concealed
        = (st.conceal && !st.standAloneHide && !st.isBinary) := by
      unfold DTState.concealed DTState.hideSensitiveData toggleStandAloneHide
        DTState.isBinary
      simp [hcsa]
    have hsc : st.concealed = st.standAloneHide := by
      unfold DTState.concealed DTState.hideSensitiveData
      simp [hcsa, hc, hb]
    rw [hts, hsc]
    simp [hc, hb]

theorem detailtext_C9_witness :
    ((DTState.mk "secret" 640 (some false) true true true true true).concealed = true ↔
      (DTState.mk "secret" 640 (some false) true true true true true).conceal = true ∧
      (DTState.mk "secret" 640 (some false) true true true true true).hideSensitiveData = true ∧
      (DTState.mk "secret" 640 (some false) true true true true true).isBinary = false) ∧
    ((DTState.mk "secret" 640 (some false) true true true true true).hideSensitiveData
        = (if (DTState.mk "secret" 640 (some false) true true true true true).concealStandAlone
            then (DTState.mk "secret" 640 (some false) true true true true true).standAloneHide
            else (DTState.mk "secret" 640 (some false) true true true true true).hideSensitivePref)) ∧
    ((toggleStandAloneHide (DTState.mk "secret" 640 (some false) true true true true true)).concealed
        = !(DTState.mk "secret" 640 (some false) true true true true true).concealed) ∧
    (toggleStandAloneHide (DTState.mk "secret" 640 (some false) true true true true true)).value
        = (DTState.mk "secret" 640 (some false) true true true true true).value ∧
    (toggleStandAloneHide (DTState.mk "secret" 640 (some false) true true true true true)).body "b"
        = (DTState.mk "secret" 640 (some false) true true true true true).body "b" :=
  detailtext_C9 (DTState.mk "secret" 640 (some false) true true true true true)
    (DTState.mk "secret" 640 (some false) true true true true true) "b" rfl rfl rfl

end DetailText

